import Mathlib

/-!
Shallow embedding of the task lifecycle manager of micro-func/microfunc
(src/task_manager.py, with the status validation of the CLI wrapper in
src/microfunc.py).

The SQLite store is modelled as an explicit state (`DB`): the `tasks`
table as a list of rows, the append-only `task_history` table as a list
of entries in insertion order, and the calls to the notification helpers
(`_notify_task_created` / `_notify_status_change`, the trigger points of
the outbound webhook collaborator) as a list of emitted events.
Wall-clock timestamps (`datetime.now().isoformat()`) are modelled by a
logical clock that every mutating top-level operation advances by one,
so timestamp order coincides with insertion order.  Child processes and
the filesystem are external inputs, modelled by an `ExecEnv` oracle.
-/

namespace Microfunc

/-- A row of the `tasks` table (columns exactly as created in
`TaskManager._init_database`).  The JSON-serialised columns `tags`,
`prerequisites` and `parameters` are modelled by their decoded values;
a parameter value is carried as the string it renders to on the command
line (`json.dumps` for composites, `str` otherwise). -/
structure Task where
  id : String
  title : String
  description : Option String
  assignee : Option String
  executor : Option String
  due_date : Option String
  status : String
  priority : String
  tags : List String
  prerequisites : List String
  type : String
  schedule : Option String
  trigger : Option String
  script : Option String
  parameters : List (String × String)
  created_at : Nat
  updated_at : Nat
deriving Repr, DecidableEq

/-- A row of the append-only `task_history` table. -/
structure HistoryEntry where
  task_id : String
  old_status : Option String
  new_status : String
  changed_by : String
  timestamp : Nat
  comment : Option String
deriving Repr, DecidableEq

/-- A call to one of the notification helpers of `TaskManager`
(`_notify_task_created` / `_notify_status_change`), i.e. the point where
a lifecycle notification is triggered; actual webhook delivery belongs
to the excluded communication collaborator. -/
inductive Notif where
  | task_created (task_id title : String) (assignee : Option String) (timestamp : Nat)
  | status_changed (task_id title old_status new_status : String) (timestamp : Nat)
deriving Repr, DecidableEq

/-- The persistent state: both tables plus the trace of triggered
notifications and the logical clock. -/
structure DB where
  tasks : List Task
  history : List HistoryEntry
  notifs : List Notif
  clock : Nat
deriving Repr, DecidableEq

def emptyDB : DB := { tasks := [], history := [], notifs := [], clock := 0 }

/-- `SELECT * FROM tasks WHERE id = ?` (id is the primary key, so the
first match is the row). -/
def findTask (db : DB) (task_id : String) : Option Task :=
  db.tasks.find? (fun t => t.id == task_id)

/-- Current status of a task, if present. -/
def taskStatus (db : DB) (task_id : String) : Option String :=
  (findTask db task_id).map (fun t => t.status)

/-- The most recent entry for a task id in a history list (by
timestamp/insertion order; the clock makes the two coincide). -/
def latestOf (h : List HistoryEntry) (task_id : String) : Option HistoryEntry :=
  (h.filter (fun e => e.task_id == task_id)).getLast?

/-- The most recent history entry for a task id in the store. -/
def latestHistory (db : DB) (task_id : String) : Option HistoryEntry :=
  latestOf db.history task_id

/-- Comment of the most recent history entry for a task id. -/
def latestComment (db : DB) (task_id : String) : Option String :=
  (latestHistory db task_id).bind (fun e => e.comment)

/-- The argument tuple of `TaskManager.add_or_update_task`, with the
Python keyword defaults already resolved by the caller. -/
structure UpsertArgs where
  task_id : String
  title : String
  description : Option String
  assignee : Option String
  executor : Option String
  due_date : Option String
  status : String
  priority : String
  tags : List String
  prerequisites : List String
  task_type : String
  schedule : Option String
  trigger : Option String
  script : Option String
  parameters : List (String × String)
deriving Repr, DecidableEq

/-- The task row written by `add_or_update_task` for the given argument
tuple and timestamps. -/
def mkRow (a : UpsertArgs) (created updated : Nat) : Task :=
  { id := a.task_id, title := a.title, description := a.description,
    assignee := a.assignee, executor := a.executor, due_date := a.due_date,
    status := a.status, priority := a.priority, tags := a.tags,
    prerequisites := a.prerequisites, type := a.task_type,
    schedule := a.schedule, trigger := a.trigger, script := a.script,
    parameters := a.parameters, created_at := created, updated_at := updated }

/-- `TaskManager._notify_task_created` (recorded as a triggered event). -/
def notifyTaskCreated (db : DB) (task_id title : String) (assignee : Option String) : DB :=
  { db with notifs := db.notifs ++ [Notif.task_created task_id title assignee db.clock] }

/-- `TaskManager._notify_status_change` (recorded as a triggered event). -/
def notifyStatusChange (db : DB) (task_id title old_status new_status : String) : DB :=
  { db with notifs := db.notifs ++ [Notif.status_changed task_id title old_status new_status db.clock] }

/-- `TaskManager._add_task_history` on its success path: INSERT into
`task_history`. -/
def add_task_history (db : DB) (task_id : String) (old_status : Option String)
    (new_status changed_by : String) (comment : Option String) : DB :=
  { db with history := db.history ++
      [{ task_id := task_id, old_status := old_status, new_status := new_status,
         changed_by := changed_by, timestamp := db.clock, comment := comment }] }

/-- `TaskManager.add_or_update_task` (normal path, no storage faults):
looks the id up; if present, rewrites every mutable column (including
`status` and `type`) from the arguments and refreshes `updated_at`,
appending a history entry and a status-changed notification only when
the status differs; if absent, inserts the row and appends a creation
history entry (old_status null) plus a task-created notification. -/
def add_or_update_task (db : DB) (a : UpsertArgs) : DB × Bool :=
  match findTask db a.task_id with
  | some existing =>
      let db1 : DB := { db with
        tasks := db.tasks.map (fun t =>
          if t.id == a.task_id then mkRow a t.created_at db.clock else t) }
      let db2 : DB :=
        if existing.status = a.status then db1
        else
          notifyStatusChange
            (add_task_history db1 a.task_id (some existing.status) a.status "system"
              (some "Status zaktualizowany podczas synchronizacji"))
            a.task_id a.title existing.status a.status
      ({ db2 with clock := db.clock + 1 }, true)
  | none =>
      let db1 : DB := { db with tasks := db.tasks ++ [mkRow a db.clock db.clock] }
      let db2 : DB :=
        add_task_history db1 a.task_id none a.status "system" (some "Zadanie utworzone")
      let db3 : DB := notifyTaskCreated db2 a.task_id a.title a.assignee
      ({ db3 with clock := db.clock + 1 }, true)

/-- `TaskManager.update_task_status` (normal path, no storage faults):
not-found returns false with no write; equal status returns true with
no write; otherwise updates `status` and `updated_at`, appends history
and triggers a status-changed notification. -/
def update_task_status (db : DB) (task_id new_status changed_by : String)
    (comment : Option String) : DB × Bool :=
  match findTask db task_id with
  | none => (db, false)
  | some t =>
      if t.status = new_status then (db, true)
      else
        let db1 : DB := { db with
          tasks := db.tasks.map (fun u =>
            if u.id == task_id then { u with status := new_status, updated_at := db.clock } else u) }
        let db2 : DB := add_task_history db1 task_id (some t.status) new_status changed_by comment
        let db3 : DB := notifyStatusChange db2 task_id t.title t.status new_status
        ({ db3 with clock := db.clock + 1 }, true)

/-- The five-value status list of `MicroFunc.task_update`
(src/microfunc.py), matching the `TaskStatus` enum. -/
def valid_statuses : List String :=
  ["pending", "in_progress", "completed", "blocked", "failed"]

/-- `MicroFunc.task_update` (the CLI status-change wrapper), reduced to
its store effect: rejects a status outside the five-value list without
touching the store, otherwise delegates to `update_task_status` with
changed_by "user".  (The guards for a missing config file or a missing
task manager are environment checks with no store effect.) -/
def task_update (db : DB) (task_id status : String) (comment : Option String) : DB :=
  if valid_statuses.contains status then
    (update_task_status db task_id status "user" comment).1
  else db

/-- Outcome of `subprocess.Popen` + `communicate` on one command line:
either the process ran and exited with a code and captured output, or
an exception was raised during spawn/communication. -/
inductive ProcResult where
  | exited (code : Int) (stdout stderr : String)
  | exn (msg : String)
deriving Repr

/-- The external environment of the executor: `os.path.exists` and the
child-process outcome for a given command line. -/
structure ExecEnv where
  script_exists : String → Bool
  run : String → ProcResult

/-- Rendering of the script column in the Python f-string
(None prints as "None"). -/
def displayScript : Option String → String
  | none => "None"
  | some s => s

/-- The guard `if not script_path or not os.path.exists(script_path)`:
true when the column is NULL, the empty string, or a path that does not
exist. -/
def script_missing (env : ExecEnv) : Option String → Bool
  | none => true
  | some sp => (sp == "") || !(env.script_exists sp)

/-- The `--key=value` flag string built from the parameters mapping. -/
def paramsStr (ps : List (String × String)) : String :=
  ps.foldl (fun acc kv => acc ++ " --" ++ kv.1 ++ "=" ++ kv.2) ""

/-- Interpreter selection by file extension plus parameter flags, as in
`execute_automated_task`. -/
def buildCmd (script : String) (ps : List (String × String)) : String :=
  let p := paramsStr ps
  if script.endsWith ".py" then "python " ++ script ++ p
  else if script.endsWith ".sh" then "bash " ++ script ++ p
  else if script.endsWith ".js" then "node " ++ script ++ p
  else script ++ p

/-- `TaskManager.execute_automated_task`: not-found or non-automated
returns false with no mutation; otherwise transitions to in_progress,
fails without consulting the process runner when the script is missing,
and otherwise maps the child-process outcome (exit 0 / nonzero exit /
exception) to completed/failed with the prefixed, truncated comment. -/
def execute_automated_task (env : ExecEnv) (db : DB) (task_id : String) : DB × Bool :=
  match findTask db task_id with
  | none => (db, false)
  | some t =>
      if t.type ≠ "automated" then (db, false)
      else
        let db1 : DB := (update_task_status db task_id "in_progress" "system"
          (some "Rozpoczęcie wykonywania zadania automatycznego")).1
        if script_missing env t.script then
          ((update_task_status db1 task_id "failed" "system"
              (some ("Nie znaleziono skryptu " ++ displayScript t.script))).1, false)
        else
          match env.run (buildCmd (displayScript t.script) t.parameters) with
          | ProcResult.exited code out err =>
              if code = 0 then
                ((update_task_status db1 task_id "completed" "system"
                    (some ("Zadanie wykonane pomyślnie: " ++ out.take 200))).1, true)
              else
                ((update_task_status db1 task_id "failed" "system"
                    (some ("Błąd: " ++ err.take 200))).1, false)
          | ProcResult.exn m =>
              ((update_task_status db1 task_id "failed" "system"
                  (some ("Wyjątek: " ++ m))).1, false)

/-- `TaskManager.list_tasks` with its optional AND-ed filters; the tags
filter keeps a task when the filter set is a subset of the task's tags
(an empty filter list is falsy in Python and filters nothing). -/
def list_tasks (db : DB) (status task_type assignee priority : Option String)
    (tags : Option (List String)) : List Task :=
  db.tasks.filter (fun t =>
    (match status with | none => true | some s => t.status == s) &&
    (match task_type with | none => true | some ty => t.type == ty) &&
    (match assignee with | none => true | some asg => t.assignee == some asg) &&
    (match priority with | none => true | some p => t.priority == p) &&
    (match tags with
     | none => true
     | some ts => ts.isEmpty || ts.all (fun x => t.tags.contains x)))

/-- Python truthiness of an optional string column. -/
def truthyOpt : Option String → Bool
  | none => false
  | some s => !(s == "")

/-- One iteration of the scheduler's scan
(`check_and_execute_scheduled_tasks`): snapshot the automated tasks,
skip those not pending, and invoke the executor for each one with a
truthy schedule.  Also returns the list of task ids for which the
executor was invoked, in invocation order. -/
def check_and_execute_scheduled_tasks (env : ExecEnv) (db : DB) : DB × List String :=
  let automated_tasks := list_tasks db none (some "automated") none none none
  automated_tasks.foldl
    (fun acc t =>
      if t.status ≠ "pending" then acc
      else if truthyOpt t.schedule then
        ((execute_automated_task env acc.1 t.id).1, acc.2 ++ [t.id])
      else acc)
    (db, [])

/-- A manual task definition from the `manual:` section of the config
(`id` and `title` assumed present; the rest optional as in the YAML). -/
structure ManualDef where
  id : String
  title : String
  description : Option String
  assignee : Option String
  due_date : Option String
  status : Option String
  priority : Option String
  tags : List String
  prerequisites : List String
deriving Repr, DecidableEq

/-- An automated task definition from the `automated:` section. -/
structure AutomatedDef where
  id : String
  title : String
  description : Option String
  executor : Option String
  status : Option String
  priority : Option String
  tags : List String
  schedule : Option String
  trigger : Option String
  script : Option String
  parameters : List (String × String)
deriving Repr, DecidableEq

/-- The `tasks:` section of the config file. -/
structure TasksConfig where
  manual : List ManualDef
  automated : List AutomatedDef
deriving Repr, DecidableEq

/-- The `add_or_update_task` call made by `sync_tasks_from_config` for a
manual definition (defaults: status pending, priority medium, fields of
the other task type left at their None defaults). -/
def manualArgs (d : ManualDef) : UpsertArgs :=
  { task_id := d.id, title := d.title, description := d.description,
    assignee := d.assignee, executor := none, due_date := d.due_date,
    status := d.status.getD "pending", priority := d.priority.getD "medium",
    tags := d.tags, prerequisites := d.prerequisites, task_type := "manual",
    schedule := none, trigger := none, script := none, parameters := [] }

/-- The `add_or_update_task` call made by `sync_tasks_from_config` for
an automated definition. -/
def autoArgs (d : AutomatedDef) : UpsertArgs :=
  { task_id := d.id, title := d.title, description := d.description,
    assignee := none, executor := d.executor, due_date := none,
    status := d.status.getD "pending", priority := d.priority.getD "medium",
    tags := d.tags, prerequisites := [], task_type := "automated",
    schedule := d.schedule, trigger := d.trigger, script := d.script,
    parameters := d.parameters }

/-- The upsert sequence performed by one `sync_tasks_from_config` call:
all manual definitions in order, then all automated ones. -/
def syncArgs (cfg : TasksConfig) : List UpsertArgs :=
  cfg.manual.map manualArgs ++ cfg.automated.map autoArgs

/-- Folding a list of upserts over the store. -/
def applyUpserts (l : List UpsertArgs) (db : DB) : DB :=
  l.foldl (fun d a => (add_or_update_task d a).1) db

/-- `TaskManager.sync_tasks_from_config`. -/
def sync_tasks_from_config (cfg : TasksConfig) (db : DB) : DB :=
  applyUpserts (syncArgs cfg) db

/-- Storage fault injection for one `update_task_status` call: whether
the initial SELECT, the UPDATE of the task row, or the INSERT into
`task_history` raises a storage exception. -/
structure Faults where
  select_fails : Bool
  update_fails : Bool
  history_insert_fails : Bool
deriving Repr, DecidableEq

/-- `TaskManager._add_task_history` with fault injection: the function
catches its own exception, so a failed INSERT leaves the state as it
was and returns false instead of raising. -/
def add_task_historyF (f : Faults) (db : DB) (task_id : String) (old_status : Option String)
    (new_status changed_by : String) (comment : Option String) : DB × Bool :=
  if f.history_insert_fails then (db, false)
  else (add_task_history db task_id old_status new_status changed_by comment, true)

/-- `TaskManager.update_task_status` with fault injection, mirroring the
try/except of the source: an exception raised directly in the function
body (SELECT or UPDATE) rolls the transaction back and returns false,
but a failure inside `_add_task_history` is swallowed there and its
boolean result is ignored by the caller, which then triggers the
notification, commits and returns true. -/
def update_task_statusF (f : Faults) (db : DB) (task_id new_status changed_by : String)
    (comment : Option String) : DB × Bool :=
  if f.select_fails then (db, false)
  else
    match findTask db task_id with
    | none => (db, false)
    | some t =>
        if t.status = new_status then (db, true)
        else if f.update_fails then (db, false)
        else
          let db1 : DB := { db with
            tasks := db.tasks.map (fun u =>
              if u.id == task_id then { u with status := new_status, updated_at := db.clock } else u) }
          let db2 : DB := (add_task_historyF f db1 task_id (some t.status) new_status changed_by comment).1
          let db3 : DB := notifyStatusChange db2 task_id t.title t.status new_status
          ({ db3 with clock := db.clock + 1 }, true)

/-- The three store operations named by the consistency invariant. -/
inductive StoreOp where
  | upsert (a : UpsertArgs)
  | setStatus (task_id new_status changed_by : String) (comment : Option String)
  | executeTask (env : ExecEnv) (task_id : String)

def applyOp (db : DB) : StoreOp → DB
  | StoreOp.upsert a => (add_or_update_task db a).1
  | StoreOp.setStatus i n c m => (update_task_status db i n c m).1
  | StoreOp.executeTask env i => (execute_automated_task env db i).1

def applyOps (ops : List StoreOp) (db : DB) : DB :=
  ops.foldl applyOp db

/-- The consistency invariant: every task's current status equals the
new_status of its most recent history entry. -/
def statusHistoryInv (db : DB) : Prop :=
  ∀ t ∈ db.tasks, (latestHistory db t.id).map (fun e => e.new_status) = some t.status

/-- Task ids are pairwise distinct (the tasks table has id as primary
key). -/
def idsNodup (db : DB) : Prop :=
  (db.tasks.map (fun t => t.id)).Nodup

/-- The inductive invariant carried through operation sequences: unique
primary keys plus the status/history consistency property. -/
def goodDB (db : DB) : Prop := idsNodup db ∧ statusHistoryInv db

/-- Zeroing updated_at, for comparing task rows modulo the refresh of
the update timestamp that every upsert performs. -/
def eraseUpdatedAt (t : Task) : Task := { t with updated_at := 0 }

/-- The row for this argument tuple is present, and every row carrying
its id is exactly the row an upsert of this tuple writes (up to
timestamps). -/
def clauseFor (a : UpsertArgs) (db : DB) : Prop :=
  (∃ t, findTask db a.task_id = some t) ∧
  ∀ t ∈ db.tasks, t.id = a.task_id → ∃ c u, t = mkRow a c u

/-- Every definition of the sync list is faithfully materialised. -/
def syncedAll (l : List UpsertArgs) (db : DB) : Prop := ∀ a ∈ l, clauseFor a db

/-- Fixture: a manual pending task definition. -/
def uPend : UpsertArgs :=
  { task_id := "t1", title := "Test", description := none, assignee := none,
    executor := none, due_date := none, status := "pending", priority := "medium",
    tags := [], prerequisites := [], task_type := "manual", schedule := none,
    trigger := none, script := none, parameters := [] }

/-- Fixture: the same definition with status completed. -/
def uDone : UpsertArgs := { uPend with status := "completed" }

/-- Fixture: the same definition upserted as an automated task. -/
def uAutoT1 : UpsertArgs := { uPend with task_type := "automated" }

/-- Fixture: a pending automated task with a schedule and a script. -/
def uAuto : UpsertArgs :=
  { task_id := "a1", title := "Auto", description := none, assignee := none,
    executor := some "sys", due_date := none, status := "pending", priority := "medium",
    tags := [], prerequisites := [], task_type := "automated", schedule := some "* * * * *",
    trigger := some "scheduled", script := some "run.sh", parameters := [] }

/-- Fixture: a completed automated task. -/
def uAutoDone : UpsertArgs := { uAuto with task_id := "c1", status := "completed" }

/-- Fixture environment: every path exists and every command exits 0
with stdout "ok". -/
def envOk : ExecEnv :=
  { script_exists := fun _ => true, run := fun _ => ProcResult.exited 0 "ok" "" }

/-- Fixture environment: every path exists and every command exits 1
with stderr "boom". -/
def envFail : ExecEnv :=
  { script_exists := fun _ => true, run := fun _ => ProcResult.exited 1 "" "boom" }

/-- Fixture store holding the single manual pending task. -/
def dbT1 : DB := (add_or_update_task emptyDB uPend).1

/-- Fixture store holding the single automated pending task. -/
def dbA : DB := (add_or_update_task emptyDB uAuto).1

/-- Fixture store holding a single completed automated task. -/
def dbDoneAuto : DB := (add_or_update_task emptyDB uAutoDone).1

/-- Fixture config: one manual definition with defaulted status and
priority. -/
def cfgOne : TasksConfig :=
  { manual := [{ id := "t1", title := "Test", description := none, assignee := none,
                 due_date := none, status := none, priority := none, tags := [],
                 prerequisites := [] }],
    automated := [] }

/-- Fixture store: the config was synced and the task then explicitly
completed by a caller. -/
def dbSyncDone : DB :=
  (update_task_status (sync_tasks_from_config cfgOne emptyDB) "t1" "completed" "user" none).1

/-- Fault pattern: only the history INSERT raises. -/
def faultHistory : Faults :=
  { select_fails := false, update_fails := false, history_insert_fails := true }

/-! ## Helper lemmas about the store primitives -/

theorem find?_congrP {p q : Task → Bool} (h : ∀ t, p t = q t) (l : List Task) :
    l.find? p = l.find? q := by
  induction l with
  | nil => rfl
  | cons a l ih => rw [List.find?_cons, List.find?_cons, h a, ih]

theorem find?_map_upd (l : List Task) (id : String) (g : Task → Task)
    (hg : ∀ t : Task, t.id = id → (g t).id = id) :
    (l.map (fun t => if t.id == id then g t else t)).find? (fun t => t.id == id) =
      (l.find? (fun t => t.id == id)).map g := by
  rw [List.find?_map]
  have hpq : ∀ t : Task,
      ((fun t : Task => t.id == id) ∘ (fun t => if t.id == id then g t else t)) t =
        (t.id == id) := by
    intro t
    by_cases h : t.id = id
    · simp [h, hg t h]
    · simp [h]
  rw [find?_congrP hpq]
  cases hf : l.find? (fun t => t.id == id) with
  | none => rfl
  | some a =>
    have ha : a.id = id := by have h := List.find?_some hf; simpa using h
    simp [ha]

theorem find?_map_other (l : List Task) (id id' : String) (hne : id' ≠ id) (g : Task → Task)
    (hg : ∀ t : Task, t.id = id → (g t).id = id) :
    (l.map (fun t => if t.id == id then g t else t)).find? (fun t => t.id == id') =
      l.find? (fun t => t.id == id') := by
  rw [List.find?_map]
  have hpq : ∀ t : Task,
      ((fun t : Task => t.id == id') ∘ (fun t => if t.id == id then g t else t)) t =
        (t.id == id') := by
    intro t
    by_cases h : t.id = id
    · have h1 : ((g t).id == id') = false :=
        beq_eq_false_iff_ne.mpr (by rw [hg t h]; exact fun hh => hne hh.symm)
      have h2 : (t.id == id') = false :=
        beq_eq_false_iff_ne.mpr (by rw [h]; exact fun hh => hne hh.symm)
      simp [h, h1, h2]
      exact fun hh => hne hh.symm
    · simp [h]
  rw [find?_congrP hpq]
  cases hf : l.find? (fun t => t.id == id') with
  | none => rfl
  | some a =>
    have ha : a.id = id' := by have h := List.find?_some hf; simpa using h
    have hna : ¬a.id = id := by rw [ha]; exact hne
    simp [hna]

theorem findTask_update_self (db : DB) (id ns cb : String) (c : Option String) (t : Task)
    (hf : findTask db id = some t) :
    findTask (update_task_status db id ns cb c).1 id =
      some (if t.status = ns then t else { t with status := ns, updated_at := db.clock }) := by
  unfold update_task_status
  rw [hf]
  by_cases hst : t.status = ns
  · simp [hst, hf]
  · simp only [if_neg hst]
    show (db.tasks.map fun u =>
        if u.id == id then { u with status := ns, updated_at := db.clock } else u).find?
        (fun u => u.id == id) = _
    rw [find?_map_upd db.tasks id
        (fun u => { u with status := ns, updated_at := db.clock }) (fun u hu => hu)]
    show (findTask db id).map _ = _
    rw [hf]
    simp [hst]

theorem taskStatus_update_self (db : DB) (id ns cb : String) (c : Option String) (t : Task)
    (hf : findTask db id = some t) :
    taskStatus (update_task_status db id ns cb c).1 id = some ns := by
  unfold taskStatus
  rw [findTask_update_self db id ns cb c t hf]
  by_cases hst : t.status = ns
  · simp [hst]
  · simp [hst]

theorem findTask_update_other (db : DB) (id id' ns cb : String) (c : Option String)
    (hne : id' ≠ id) :
    findTask (update_task_status db id ns cb c).1 id' = findTask db id' := by
  unfold update_task_status
  cases hf : findTask db id with
  | none => rfl
  | some t =>
    by_cases hst : t.status = ns
    · simp [hst]
    · simp only [if_neg hst]
      show (db.tasks.map fun u =>
          if u.id == id then { u with status := ns, updated_at := db.clock } else u).find?
          (fun u => u.id == id') = _
      exact find?_map_other db.tasks id id' hne
        (fun u => { u with status := ns, updated_at := db.clock }) (fun u hu => hu)

theorem latestHistory_update_changed (db : DB) (id ns cb : String) (c : Option String) (t : Task)
    (hf : findTask db id = some t) (hst : t.status ≠ ns) :
    latestHistory (update_task_status db id ns cb c).1 id =
      some { task_id := id, old_status := some t.status, new_status := ns,
             changed_by := cb, timestamp := db.clock, comment := c } := by
  unfold update_task_status
  rw [hf]
  simp only [if_neg hst]
  unfold latestHistory latestOf add_task_history notifyStatusChange
  simp [List.filter_append, List.getLast?_concat]

theorem upsert_insert (db : DB) (a : UpsertArgs) (hf : findTask db a.task_id = none) :
    add_or_update_task db a =
      ({ tasks := db.tasks ++ [mkRow a db.clock db.clock],
         history := db.history ++
           [{ task_id := a.task_id, old_status := none, new_status := a.status,
              changed_by := "system", timestamp := db.clock,
              comment := some "Zadanie utworzone" }],
         notifs := db.notifs ++ [Notif.task_created a.task_id a.title a.assignee db.clock],
         clock := db.clock + 1 }, true) := by
  unfold add_or_update_task
  rw [hf]
  rfl

theorem upsert_existing_same (db : DB) (a : UpsertArgs) (t : Task)
    (hf : findTask db a.task_id = some t) (hst : t.status = a.status) :
    add_or_update_task db a =
      ({ tasks := db.tasks.map (fun u =>
           if u.id == a.task_id then mkRow a u.created_at db.clock else u),
         history := db.history, notifs := db.notifs, clock := db.clock + 1 }, true) := by
  unfold add_or_update_task
  rw [hf]
  simp only [if_pos hst]

theorem upsert_existing_diff (db : DB) (a : UpsertArgs) (t : Task)
    (hf : findTask db a.task_id = some t) (hst : t.status ≠ a.status) :
    add_or_update_task db a =
      ({ tasks := db.tasks.map (fun u =>
           if u.id == a.task_id then mkRow a u.created_at db.clock else u),
         history := db.history ++
           [{ task_id := a.task_id, old_status := some t.status, new_status := a.status,
              changed_by := "system", timestamp := db.clock,
              comment := some "Status zaktualizowany podczas synchronizacji" }],
         notifs := db.notifs ++
           [Notif.status_changed a.task_id a.title t.status a.status db.clock],
         clock := db.clock + 1 }, true) := by
  unfold add_or_update_task
  rw [hf]
  simp only [if_neg hst]
  rfl

theorem findTask_upsert_self (db : DB) (a : UpsertArgs) :
    ∃ cr, findTask (add_or_update_task db a).1 a.task_id = some (mkRow a cr db.clock) := by
  cases hf : findTask db a.task_id with
  | none =>
    refine ⟨db.clock, ?_⟩
    rw [upsert_insert db a hf]
    show (db.tasks ++ [mkRow a db.clock db.clock]).find? (fun t => t.id == a.task_id) = _
    rw [List.find?_append]
    have h1 : db.tasks.find? (fun t => t.id == a.task_id) = none := hf
    rw [h1]
    simp [mkRow]
  | some t =>
    refine ⟨t.created_at, ?_⟩
    have htasks : (add_or_update_task db a).1.tasks =
        db.tasks.map (fun u => if u.id == a.task_id then mkRow a u.created_at db.clock else u) := by
      by_cases hst : t.status = a.status
      · rw [upsert_existing_same db a t hf hst]
      · rw [upsert_existing_diff db a t hf hst]
    show (add_or_update_task db a).1.tasks.find? (fun u => u.id == a.task_id) = _
    rw [htasks, find?_map_upd db.tasks a.task_id
        (fun u => mkRow a u.created_at db.clock) (fun u _ => rfl)]
    show (findTask db a.task_id).map _ = _
    rw [hf]
    rfl

theorem findTask_upsert_other (db : DB) (a : UpsertArgs) (id' : String)
    (hne : id' ≠ a.task_id) :
    findTask (add_or_update_task db a).1 id' = findTask db id' := by
  cases hf : findTask db a.task_id with
  | none =>
    rw [upsert_insert db a hf]
    show (db.tasks ++ [mkRow a db.clock db.clock]).find? (fun t => t.id == id') = _
    rw [List.find?_append]
    have h2 : List.find? (fun t : Task => t.id == id') [mkRow a db.clock db.clock] = none := by
      have : ((mkRow a db.clock db.clock).id == id') = false :=
        beq_eq_false_iff_ne.mpr (fun hh => hne hh.symm)
      simp [List.find?, this]
    rw [h2]
    exact Option.or_none
  | some t =>
    have htasks : (add_or_update_task db a).1.tasks =
        db.tasks.map (fun u => if u.id == a.task_id then mkRow a u.created_at db.clock else u) := by
      by_cases hst : t.status = a.status
      · rw [upsert_existing_same db a t hf hst]
      · rw [upsert_existing_diff db a t hf hst]
    show (add_or_update_task db a).1.tasks.find? (fun u => u.id == id') = _
    rw [htasks]
    exact find?_map_other db.tasks a.task_id id' hne
      (fun u => mkRow a u.created_at db.clock) (fun u _ => rfl)

theorem update_tasks_map_type (db : DB) (id ns cb : String) (c : Option String) :
    ((update_task_status db id ns cb c).1).tasks.map (fun t => t.type) =
      db.tasks.map (fun t => t.type) := by
  unfold update_task_status
  cases hf : findTask db id with
  | none => rfl
  | some t =>
    by_cases hst : t.status = ns
    · simp [hst]
    · simp only [if_neg hst]
      show (db.tasks.map fun u =>
          if u.id == id then { u with status := ns, updated_at := db.clock } else u).map
          (fun t => t.type) = _
      rw [List.map_map]
      exact List.map_congr_left (fun a _ => by by_cases h : a.id = id <;> simp [h])

theorem update_notfound (db : DB) (id ns cb : String) (c : Option String)
    (hf : findTask db id = none) :
    update_task_status db id ns cb c = (db, false) := by
  unfold update_task_status
  rw [hf]

theorem update_noop (db : DB) (id ns cb : String) (c : Option String) (t : Task)
    (hf : findTask db id = some t) (hst : t.status = ns) :
    update_task_status db id ns cb c = (db, true) := by
  unfold update_task_status
  rw [hf]
  simp only [if_pos hst]

theorem update_changed_eq (db : DB) (id ns cb : String) (c : Option String) (t : Task)
    (hf : findTask db id = some t) (hst : t.status ≠ ns) :
    update_task_status db id ns cb c =
      ({ tasks := db.tasks.map (fun u =>
           if u.id == id then { u with status := ns, updated_at := db.clock } else u),
         history := db.history ++
           [{ task_id := id, old_status := some t.status, new_status := ns,
              changed_by := cb, timestamp := db.clock, comment := c }],
         notifs := db.notifs ++ [Notif.status_changed id t.title t.status ns db.clock],
         clock := db.clock + 1 }, true) := by
  unfold update_task_status
  rw [hf]
  simp only [if_neg hst]
  rfl

theorem upsert_insert_fst (db : DB) (a : UpsertArgs) (hf : findTask db a.task_id = none) :
    (add_or_update_task db a).1 =
      { tasks := db.tasks ++ [mkRow a db.clock db.clock],
        history := db.history ++
          [{ task_id := a.task_id, old_status := none, new_status := a.status,
             changed_by := "system", timestamp := db.clock,
             comment := some "Zadanie utworzone" }],
        notifs := db.notifs ++ [Notif.task_created a.task_id a.title a.assignee db.clock],
        clock := db.clock + 1 } := by
  rw [upsert_insert db a hf]

theorem upsert_same_fst (db : DB) (a : UpsertArgs) (t : Task)
    (hf : findTask db a.task_id = some t) (hst : t.status = a.status) :
    (add_or_update_task db a).1 =
      { tasks := db.tasks.map (fun u =>
          if u.id == a.task_id then mkRow a u.created_at db.clock else u),
        history := db.history, notifs := db.notifs, clock := db.clock + 1 } := by
  rw [upsert_existing_same db a t hf hst]

theorem upsert_diff_fst (db : DB) (a : UpsertArgs) (t : Task)
    (hf : findTask db a.task_id = some t) (hst : t.status ≠ a.status) :
    (add_or_update_task db a).1 =
      { tasks := db.tasks.map (fun u =>
          if u.id == a.task_id then mkRow a u.created_at db.clock else u),
        history := db.history ++
          [{ task_id := a.task_id, old_status := some t.status, new_status := a.status,
             changed_by := "system", timestamp := db.clock,
             comment := some "Status zaktualizowany podczas synchronizacji" }],
        notifs := db.notifs ++
          [Notif.status_changed a.task_id a.title t.status a.status db.clock],
        clock := db.clock + 1 } := by
  rw [upsert_existing_diff db a t hf hst]

theorem update_changed_fst (db : DB) (id ns cb : String) (c : Option String) (t : Task)
    (hf : findTask db id = some t) (hst : t.status ≠ ns) :
    (update_task_status db id ns cb c).1 =
      { tasks := db.tasks.map (fun u =>
          if u.id == id then { u with status := ns, updated_at := db.clock } else u),
        history := db.history ++
          [{ task_id := id, old_status := some t.status, new_status := ns,
             changed_by := cb, timestamp := db.clock, comment := c }],
        notifs := db.notifs ++ [Notif.status_changed id t.title t.status ns db.clock],
        clock := db.clock + 1 } := by
  rw [update_changed_eq db id ns cb c t hf hst]

theorem latest_append_self (h : List HistoryEntry) (e : HistoryEntry) (id : String)
    (he : e.task_id = id) :
    latestOf (h ++ [e]) id = some e := by
  unfold latestOf
  rw [List.filter_append]
  have h1 : List.filter (fun x : HistoryEntry => x.task_id == id) [e] = [e] := by simp [he]
  rw [h1, List.getLast?_concat]

theorem latest_append_other (h : List HistoryEntry) (e : HistoryEntry) (id : String)
    (he : e.task_id ≠ id) :
    latestOf (h ++ [e]) id = latestOf h id := by
  unfold latestOf
  rw [List.filter_append]
  have h1 : List.filter (fun x : HistoryEntry => x.task_id == id) [e] = [] := by simp [he]
  rw [h1, List.append_nil]

theorem latestHistory_mk_append_self (ts : List Task) (h : List HistoryEntry)
    (nf : List Notif) (ck : Nat) (e : HistoryEntry) (id : String) (he : e.task_id = id) :
    latestHistory { tasks := ts, history := h ++ [e], notifs := nf, clock := ck } id =
      some e :=
  latest_append_self h e id he

theorem latestHistory_mk_append_other (ts : List Task) (h : List HistoryEntry)
    (nf : List Notif) (ck : Nat) (e : HistoryEntry) (id : String) (he : e.task_id ≠ id) :
    latestHistory { tasks := ts, history := h ++ [e], notifs := nf, clock := ck } id =
      latestOf h id :=
  latest_append_other h e id he

theorem findTask_exec_other (env : ExecEnv) (db : DB) (id id' : String) (hne : id' ≠ id) :
    findTask (execute_automated_task env db id).1 id' = findTask db id' := by
  unfold execute_automated_task
  cases hf : findTask db id with
  | none => rfl
  | some t =>
    by_cases ht : t.type ≠ "automated"
    · simp only [if_pos ht]
    · simp only [if_neg ht]
      split
      · rw [findTask_update_other _ _ _ _ _ _ hne, findTask_update_other _ _ _ _ _ _ hne]
      · split
        · split
          · rw [findTask_update_other _ _ _ _ _ _ hne, findTask_update_other _ _ _ _ _ _ hne]
          · rw [findTask_update_other _ _ _ _ _ _ hne, findTask_update_other _ _ _ _ _ _ hne]
        · rw [findTask_update_other _ _ _ _ _ _ hne, findTask_update_other _ _ _ _ _ _ hne]

theorem exec_tasks_map_type (env : ExecEnv) (db : DB) (id : String) :
    ((execute_automated_task env db id).1).tasks.map (fun t => t.type) =
      db.tasks.map (fun t => t.type) := by
  unfold execute_automated_task
  cases hf : findTask db id with
  | none => rfl
  | some t =>
    by_cases ht : t.type ≠ "automated"
    · simp only [if_pos ht]
    · simp only [if_neg ht]
      split
      · rw [update_tasks_map_type, update_tasks_map_type]
      · split
        · split
          · rw [update_tasks_map_type, update_tasks_map_type]
          · rw [update_tasks_map_type, update_tasks_map_type]
        · rw [update_tasks_map_type, update_tasks_map_type]


theorem nodup_find_unique (db : DB) (x : String) (t : Task) (hnd : idsNodup db)
    (hf : findTask db x = some t) : ∀ v ∈ db.tasks, v.id = x → v = t := by
  intro v hv hvx
  have htm : t ∈ db.tasks := List.mem_of_find?_eq_some hf
  have htx : t.id = x := by have h := List.find?_some hf; simpa using h
  exact List.inj_on_of_nodup_map hnd hv htm (by rw [hvx, htx])

theorem good_update (db : DB) (id ns cb : String) (c : Option String) (h : goodDB db) :
    goodDB (update_task_status db id ns cb c).1 := by
  obtain ⟨hnd, hinv⟩ := h
  cases hf : findTask db id with
  | none => rw [update_notfound db id ns cb c hf]; exact ⟨hnd, hinv⟩
  | some t =>
    by_cases hst : t.status = ns
    · rw [update_noop db id ns cb c t hf hst]; exact ⟨hnd, hinv⟩
    · rw [update_changed_fst db id ns cb c t hf hst]
      constructor
      · unfold idsNodup at hnd ⊢
        show ((db.tasks.map _).map _).Nodup
        rw [List.map_map]
        have he : db.tasks.map ((fun t : Task => t.id) ∘ (fun u : Task =>
            if u.id == id then { u with status := ns, updated_at := db.clock } else u)) =
            db.tasks.map (fun t => t.id) :=
          List.map_congr_left (fun v _ => by by_cases hv : v.id = id <;> simp [hv])
        rw [he]; exact hnd
      · intro u hu
        obtain ⟨v, hv, hveq⟩ := List.mem_map.mp hu
        by_cases hvid : v.id = id
        · have hu_eq : u = { v with status := ns, updated_at := db.clock } := by
            rw [← hveq]; simp [hvid]
          have huid : u.id = id := by rw [hu_eq]; exact hvid
          show (latestHistory _ u.id).map (fun e => e.new_status) = some u.status
          rw [huid, latestHistory_mk_append_self _ _ _ _ _ _ rfl]
          rw [hu_eq]
          rfl
        · have hu_eq : u = v := by rw [← hveq]; simp [hvid]
          have huid : u.id ≠ id := by rw [hu_eq]; exact hvid
          show (latestHistory _ u.id).map (fun e => e.new_status) = some u.status
          rw [latestHistory_mk_append_other _ _ _ _ _ _ (fun hh => huid hh.symm)]
          rw [hu_eq]
          exact hinv v hv

theorem good_upsert (db : DB) (a : UpsertArgs) (h : goodDB db) :
    goodDB (add_or_update_task db a).1 := by
  obtain ⟨hnd, hinv⟩ := h
  cases hf : findTask db a.task_id with
  | none =>
    rw [upsert_insert_fst db a hf]
    have hnotin : ∀ t ∈ db.tasks, t.id ≠ a.task_id := by
      intro t htm heq
      have hx := List.find?_eq_none.mp hf t htm
      simp [heq] at hx
    constructor
    · unfold idsNodup
      show ((db.tasks ++ [mkRow a db.clock db.clock]).map (fun t => t.id)).Nodup
      rw [List.map_append, List.nodup_append]
      refine ⟨hnd, by simp, ?_⟩
      intro y hy hy2
      obtain ⟨v, hv, hveq⟩ := List.mem_map.mp hy
      have hya : y = a.task_id := by simpa [mkRow] using hy2
      exact hnotin v hv (by rw [hveq, hya])
    · intro u hu
      rcases List.mem_append.mp hu with hu1 | hu2
      · have hne : u.id ≠ a.task_id := hnotin u hu1
        show (latestHistory _ u.id).map (fun e => e.new_status) = some u.status
        rw [latestHistory_mk_append_other _ _ _ _ _ _ (fun hh => hne hh.symm)]
        exact hinv u hu1
      · have hu_eq : u = mkRow a db.clock db.clock := by simpa using hu2
        have huid : u.id = a.task_id := by rw [hu_eq]; rfl
        show (latestHistory _ u.id).map (fun e => e.new_status) = some u.status
        rw [huid, latestHistory_mk_append_self _ _ _ _ _ _ rfl]
        rw [hu_eq]
        rfl
  | some t =>
    have htasksid :
        ((db.tasks.map (fun u => if u.id == a.task_id then mkRow a u.created_at db.clock else u)).map
          (fun t : Task => t.id)) = db.tasks.map (fun t => t.id) := by
      rw [List.map_map]
      exact List.map_congr_left (fun v _ => by by_cases hv : v.id = a.task_id <;> simp [hv, mkRow])
    by_cases hst : t.status = a.status
    · rw [upsert_same_fst db a t hf hst]
      constructor
      · unfold idsNodup
        show ((db.tasks.map _).map _).Nodup
        rw [htasksid]
        exact hnd
      · intro u hu
        obtain ⟨v, hv, hveq⟩ := List.mem_map.mp hu
        by_cases hvid : v.id = a.task_id
        · have hvt : v = t := nodup_find_unique db a.task_id t hnd hf v hv hvid
          have hu_eq : u = mkRow a v.created_at db.clock := by rw [← hveq]; simp [hvid]
          have huid : u.id = a.task_id := by rw [hu_eq]; rfl
          have hust : u.status = a.status := by rw [hu_eq]; rfl
          have hids : u.id = v.id := by rw [huid, hvid]
          have hsts : u.status = v.status := by rw [hust, hvt, hst]
          show (latestHistory db u.id).map (fun e => e.new_status) = some u.status
          rw [hids, hsts]
          exact hinv v hv
        · have hu_eq : u = v := by rw [← hveq]; simp [hvid]
          show (latestHistory db u.id).map (fun e => e.new_status) = some u.status
          rw [hu_eq]
          exact hinv v hv
    · rw [upsert_diff_fst db a t hf hst]
      constructor
      · unfold idsNodup
        show ((db.tasks.map _).map _).Nodup
        rw [htasksid]
        exact hnd
      · intro u hu
        obtain ⟨v, hv, hveq⟩ := List.mem_map.mp hu
        by_cases hvid : v.id = a.task_id
        · have hu_eq : u = mkRow a v.created_at db.clock := by rw [← hveq]; simp [hvid]
          have huid : u.id = a.task_id := by rw [hu_eq]; rfl
          show (latestHistory _ u.id).map (fun e => e.new_status) = some u.status
          rw [huid, latestHistory_mk_append_self _ _ _ _ _ _ rfl]
          rw [hu_eq]
          rfl
        · have hu_eq : u = v := by rw [← hveq]; simp [hvid]
          have huid : u.id ≠ a.task_id := by rw [hu_eq]; exact hvid
          show (latestHistory _ u.id).map (fun e => e.new_status) = some u.status
          rw [latestHistory_mk_append_other _ _ _ _ _ _ (fun hh => huid hh.symm)]
          rw [hu_eq]
          exact hinv v hv

theorem good_exec (env : ExecEnv) (db : DB) (id : String) (h : goodDB db) :
    goodDB (execute_automated_task env db id).1 := by
  unfold execute_automated_task
  cases hf : findTask db id with
  | none => exact h
  | some t =>
    by_cases ht : t.type ≠ "automated"
    · simp only [if_pos ht]; exact h
    · simp only [if_neg ht]
      have h1 : goodDB (update_task_status db id "in_progress" "system"
          (some "Rozpoczęcie wykonywania zadania automatycznego")).1 :=
        good_update db id "in_progress" "system" _ h
      split
      · exact good_update _ _ _ _ _ h1
      · split
        · split
          · exact good_update _ _ _ _ _ h1
          · exact good_update _ _ _ _ _ h1
        · exact good_update _ _ _ _ _ h1

theorem good_applyOp (db : DB) (op : StoreOp) (h : goodDB db) : goodDB (applyOp db op) := by
  cases op with
  | upsert a => exact good_upsert db a h
  | setStatus i n c m => exact good_update db i n c m h
  | executeTask env i => exact good_exec env db i h

theorem good_applyOps (ops : List StoreOp) (db : DB) (h : goodDB db) :
    goodDB (applyOps ops db) := by
  induction ops generalizing db with
  | nil => exact h
  | cons op ops ih => exact ih _ (good_applyOp db op h)


theorem clauseFor_upsert_self (db : DB) (a : UpsertArgs) :
    clauseFor a (add_or_update_task db a).1 := by
  constructor
  · obtain ⟨cr, hcr⟩ := findTask_upsert_self db a
    exact ⟨_, hcr⟩
  · intro t htm htid
    cases hf : findTask db a.task_id with
    | none =>
      rw [upsert_insert_fst db a hf] at htm
      rcases List.mem_append.mp htm with h1 | h2
      · exfalso
        have hx := List.find?_eq_none.mp hf t h1
        simp [htid] at hx
      · have hrow : t = mkRow a db.clock db.clock := by simpa using h2
        exact ⟨db.clock, db.clock, hrow⟩
    | some t0 =>
      have htasks : (add_or_update_task db a).1.tasks =
          db.tasks.map (fun u => if u.id == a.task_id then mkRow a u.created_at db.clock else u) := by
        by_cases hst : t0.status = a.status
        · rw [upsert_same_fst db a t0 hf hst]
        · rw [upsert_diff_fst db a t0 hf hst]
      rw [htasks] at htm
      obtain ⟨v, hv, hveq⟩ := List.mem_map.mp htm
      by_cases hvid : v.id = a.task_id
      · exact ⟨v.created_at, db.clock, by rw [← hveq]; simp [hvid]⟩
      · exfalso
        have htv : t = v := by rw [← hveq]; simp [hvid]
        rw [htv] at htid
        exact hvid htid

theorem clauseFor_upsert_other (db : DB) (a b : UpsertArgs) (hne : a.task_id ≠ b.task_id)
    (h : clauseFor a db) : clauseFor a (add_or_update_task db b).1 := by
  obtain ⟨⟨t0, ht0⟩, hall⟩ := h
  constructor
  · exact ⟨t0, by rw [findTask_upsert_other db b a.task_id hne]; exact ht0⟩
  · intro t htm htid
    cases hf : findTask db b.task_id with
    | none =>
      rw [upsert_insert_fst db b hf] at htm
      rcases List.mem_append.mp htm with h1 | h2
      · exact hall t h1 htid
      · exfalso
        have hrow : t = mkRow b db.clock db.clock := by simpa using h2
        rw [hrow] at htid
        have hba : b.task_id = a.task_id := htid
        exact hne hba.symm
    | some t0b =>
      have htasks : (add_or_update_task db b).1.tasks =
          db.tasks.map (fun u => if u.id == b.task_id then mkRow b u.created_at db.clock else u) := by
        by_cases hst : t0b.status = b.status
        · rw [upsert_same_fst db b t0b hf hst]
        · rw [upsert_diff_fst db b t0b hf hst]
      rw [htasks] at htm
      obtain ⟨v, hv, hveq⟩ := List.mem_map.mp htm
      by_cases hvid : v.id = b.task_id
      · exfalso
        have hrow : t = mkRow b v.created_at db.clock := by rw [← hveq]; simp [hvid]
        rw [hrow] at htid
        have hba : b.task_id = a.task_id := htid
        exact hne hba.symm
      · have htv : t = v := by rw [← hveq]; simp [hvid]
        have hvida : v.id = a.task_id := by rw [← htv]; exact htid
        obtain ⟨c1, u1, hv1⟩ := hall v hv hvida
        exact ⟨c1, u1, by rw [htv]; exact hv1⟩

theorem clauseFor_applyUpserts (l : List UpsertArgs) (a : UpsertArgs)
    (hne : ∀ b ∈ l, a.task_id ≠ b.task_id) :
    ∀ db, clauseFor a db → clauseFor a (applyUpserts l db) := by
  induction l with
  | nil => intro db h; exact h
  | cons b l ih =>
    intro db h
    show clauseFor a (applyUpserts l (add_or_update_task db b).1)
    exact ih (fun x hx => hne x (List.mem_cons_of_mem b hx)) _
      (clauseFor_upsert_other db a b (hne b (List.mem_cons_self b l)) h)

theorem syncedAll_applyUpserts (l : List UpsertArgs)
    (hnd : (l.map (fun a => a.task_id)).Nodup) :
    ∀ db, syncedAll l (applyUpserts l db) := by
  induction l with
  | nil => intro db a ha; exact absurd ha (List.not_mem_nil a)
  | cons b l ih =>
    intro db a ha
    have hnd' : (l.map (fun a => a.task_id)).Nodup := (List.nodup_cons.mp hnd).2
    have hbnot : b.task_id ∉ l.map (fun a => a.task_id) := (List.nodup_cons.mp hnd).1
    rcases List.mem_cons.mp ha with heq | hal
    · subst heq
      show clauseFor a (applyUpserts l (add_or_update_task db a).1)
      refine clauseFor_applyUpserts l a ?_ _ (clauseFor_upsert_self db a)
      intro x hx hxeq
      apply hbnot
      rw [hxeq]
      exact List.mem_map_of_mem _ hx
    · exact ih hnd' ((add_or_update_task db b).1) a hal

theorem applyUpserts_noop (l : List UpsertArgs) :
    ∀ db, (l.map (fun a => a.task_id)).Nodup → syncedAll l db →
      (applyUpserts l db).history = db.history ∧
      (applyUpserts l db).notifs = db.notifs ∧
      (applyUpserts l db).tasks.map eraseUpdatedAt = db.tasks.map eraseUpdatedAt := by
  induction l with
  | nil => intro db _ _; exact ⟨rfl, rfl, rfl⟩
  | cons a l ih =>
    intro db hnd hsync
    obtain ⟨⟨t0, ht0⟩, hall⟩ := hsync a (List.mem_cons_self a l)
    have ht0m : t0 ∈ db.tasks := List.mem_of_find?_eq_some ht0
    have ht0id : t0.id = a.task_id := by have hx := List.find?_some ht0; simpa using hx
    obtain ⟨c0, u0, ht0row⟩ := hall t0 ht0m ht0id
    have hst : t0.status = a.status := by rw [ht0row]; rfl
    have hup := upsert_same_fst db a t0 ht0 hst
    have hanot : a.task_id ∉ l.map (fun a => a.task_id) := (List.nodup_cons.mp hnd).1
    have hnd' : (l.map (fun a => a.task_id)).Nodup := (List.nodup_cons.mp hnd).2
    have hsync' : syncedAll l (add_or_update_task db a).1 := by
      intro b hb
      have hneq : b.task_id ≠ a.task_id := by
        intro heq
        apply hanot
        rw [← heq]
        exact List.mem_map_of_mem _ hb
      exact clauseFor_upsert_other db b a hneq (hsync b (List.mem_cons_of_mem a hb))
    obtain ⟨hh, hn, htk⟩ := ih ((add_or_update_task db a).1) hnd' hsync'
    rw [hup] at hh hn htk
    have hmap : (db.tasks.map (fun u =>
        if u.id == a.task_id then mkRow a u.created_at db.clock else u)).map eraseUpdatedAt =
        db.tasks.map eraseUpdatedAt := by
      rw [List.map_map]
      refine List.map_congr_left ?_
      intro v hv
      by_cases hvid : v.id = a.task_id
      · obtain ⟨cv, uv, hvrow⟩ := hall v hv hvid
        show eraseUpdatedAt (if (v.id == a.task_id) = true
            then mkRow a v.created_at db.clock else v) = eraseUpdatedAt v
        rw [if_pos (beq_iff_eq.mpr hvid)]
        rw [hvrow]
        rfl
      · show eraseUpdatedAt (if (v.id == a.task_id) = true
            then mkRow a v.created_at db.clock else v) = eraseUpdatedAt v
        rw [if_neg (by simp [hvid])]
    refine ⟨?_, ?_, ?_⟩
    · rw [show applyUpserts (a :: l) db = applyUpserts l (add_or_update_task db a).1 from rfl,
        hup]
      exact hh
    · rw [show applyUpserts (a :: l) db = applyUpserts l (add_or_update_task db a).1 from rfl,
        hup]
      exact hn
    · rw [show applyUpserts (a :: l) db = applyUpserts l (add_or_update_task db a).1 from rfl,
        hup, htk]
      exact hmap


theorem exec_notfound (env : ExecEnv) (db : DB) (task_id : String)
    (hf : findTask db task_id = none) :
    execute_automated_task env db task_id = (db, false) := by
  unfold execute_automated_task
  rw [hf]

theorem exec_wrongtype (env : ExecEnv) (db : DB) (task_id : String) (t : Task)
    (hf : findTask db task_id = some t) (ht : t.type ≠ "automated") :
    execute_automated_task env db task_id = (db, false) := by
  unfold execute_automated_task
  rw [hf]
  simp only [if_pos ht]

theorem exec_missing_eq (env : ExecEnv) (db : DB) (task_id : String) (t : Task)
    (hf : findTask db task_id = some t) (ht : t.type = "automated")
    (hsm : script_missing env t.script = true) :
    execute_automated_task env db task_id =
      ((update_task_status
          (update_task_status db task_id "in_progress" "system"
            (some "Rozpoczęcie wykonywania zadania automatycznego")).1
          task_id "failed" "system"
          (some ("Nie znaleziono skryptu " ++ displayScript t.script))).1, false) := by
  unfold execute_automated_task
  rw [hf]
  have hnt : ¬(t.type ≠ "automated") := fun hn => hn ht
  simp only [if_neg hnt, if_pos hsm]

theorem exec_exit_eq (env : ExecEnv) (db : DB) (task_id : String) (t : Task)
    (code : Int) (out err : String)
    (hf : findTask db task_id = some t) (ht : t.type = "automated")
    (hsm : script_missing env t.script = false)
    (hrun : env.run (buildCmd (displayScript t.script) t.parameters) =
      ProcResult.exited code out err) :
    execute_automated_task env db task_id =
      (if code = 0 then
        ((update_task_status
            (update_task_status db task_id "in_progress" "system"
              (some "Rozpoczęcie wykonywania zadania automatycznego")).1
            task_id "completed" "system"
            (some ("Zadanie wykonane pomyślnie: " ++ out.take 200))).1, true)
      else
        ((update_task_status
            (update_task_status db task_id "in_progress" "system"
              (some "Rozpoczęcie wykonywania zadania automatycznego")).1
            task_id "failed" "system"
            (some ("Błąd: " ++ err.take 200))).1, false)) := by
  unfold execute_automated_task
  rw [hf]
  have hnt : ¬(t.type ≠ "automated") := fun hn => hn ht
  have hns : ¬(script_missing env t.script = true) := by simp [hsm]
  simp only [if_neg hnt, if_neg hns, hrun]

theorem exec_exn_eq (env : ExecEnv) (db : DB) (task_id : String) (t : Task) (m : String)
    (hf : findTask db task_id = some t) (ht : t.type = "automated")
    (hsm : script_missing env t.script = false)
    (hrun : env.run (buildCmd (displayScript t.script) t.parameters) = ProcResult.exn m) :
    execute_automated_task env db task_id =
      ((update_task_status
          (update_task_status db task_id "in_progress" "system"
            (some "Rozpoczęcie wykonywania zadania automatycznego")).1
          task_id "failed" "system"
          (some ("Wyjątek: " ++ m))).1, false) := by
  unfold execute_automated_task
  rw [hf]
  have hnt : ¬(t.type ≠ "automated") := fun hn => hn ht
  have hns : ¬(script_missing env t.script = true) := by simp [hsm]
  simp only [if_neg hnt, if_neg hns, hrun]

theorem exec_after_in_progress (db : DB) (task_id : String) (t : Task)
    (hf : findTask db task_id = some t) :
    ∃ t1, findTask (update_task_status db task_id "in_progress" "system"
        (some "Rozpoczęcie wykonywania zadania automatycznego")).1 task_id = some t1 ∧
      t1.status = "in_progress" := by
  refine ⟨_, findTask_update_self db task_id "in_progress" "system" _ t hf, ?_⟩
  by_cases hs : t.status = "in_progress" <;> simp [hs]

theorem sched_snd (env : ExecEnv) (l : List Task) :
    ∀ acc : DB × List String,
      (l.foldl (fun acc t =>
        if t.status ≠ "pending" then acc
        else if truthyOpt t.schedule then
          ((execute_automated_task env acc.1 t.id).1, acc.2 ++ [t.id])
        else acc) acc).2 =
      acc.2 ++ (l.filter (fun t => (t.status == "pending") && truthyOpt t.schedule)).map
        (fun t => t.id) := by
  induction l with
  | nil => intro acc; simp
  | cons s l ih =>
    intro acc
    simp only [List.foldl_cons]
    by_cases hsp : s.status ≠ "pending"
    · rw [if_pos hsp]
      have hfilt : (s.status == "pending") = false := beq_eq_false_iff_ne.mpr hsp
      rw [ih]
      simp [List.filter_cons, hfilt]
    · rw [if_neg hsp]
      have hs' : s.status = "pending" := not_not.mp hsp
      have hfilt : (s.status == "pending") = true := beq_iff_eq.mpr hs'
      by_cases hsch : truthyOpt s.schedule = true
      · rw [if_pos hsch, ih]
        simp [List.filter_cons, hfilt, hsch]
      · rw [if_neg hsch]
        have hsch' : truthyOpt s.schedule = false :=
          Bool.eq_false_iff.mpr hsch
        rw [ih]
        simp [List.filter_cons, hfilt, hsch']


theorem update_task_statusF_nofault (db : DB) (id ns cb : String) (c : Option String) :
    update_task_statusF
      { select_fails := false, update_fails := false, history_insert_fails := false }
      db id ns cb c = update_task_status db id ns cb c := by
  unfold update_task_statusF update_task_status add_task_historyF
  cases hf : findTask db id with
  | none => rfl
  | some t =>
    by_cases hst : t.status = ns
    · simp [hst]
    · simp [hst]

/-! ## Claim theorems -/

/-- C1: after any sequence of store operations (add_or_update_task,
update_task_status, execute_automated_task) starting from the empty
store, every task's current status equals the new_status of the most
recent history entry recorded for that task's id. -/
theorem c1_status_equals_latest_history (ops : List StoreOp) :
    statusHistoryInv (applyOps ops emptyDB) := by
  have h0 : goodDB emptyDB := by
    constructor
    · unfold idsNodup emptyDB
      simp
    · intro t ht
      simp [emptyDB] at ht
  exact (good_applyOps ops emptyDB h0).2

/-- C2 (evidence of the code bug): on a store holding the pending task
t1, a status transition to completed during which the history INSERT
raises is not rolled back: the call still returns true and the task row
is updated to completed while the history is left untouched, so the row
update is visible without its paired history entry. -/
theorem c2_history_insert_fault_commits_row_without_history :
    (update_task_statusF faultHistory dbT1 "t1" "completed" "user" none).2 = true ∧
    taskStatus (update_task_statusF faultHistory dbT1 "t1" "completed" "user" none).1 "t1" =
      some "completed" ∧
    (update_task_statusF faultHistory dbT1 "t1" "completed" "user" none).1.history =
      dbT1.history :=
  ⟨rfl, rfl, rfl⟩

/-- C4: upserting a previously unseen id inserts the row and appends
exactly one history entry with old_status null plus a task-created
notification; upserting an existing id whose supplied status differs
from the stored one appends exactly one history entry with old_status
equal to the prior stored status and changed_by "system", plus a
status-changed notification. -/
theorem c4_upsert_history_semantics (db : DB) (a : UpsertArgs) :
    (findTask db a.task_id = none →
       (add_or_update_task db a).1.history = db.history ++
         [{ task_id := a.task_id, old_status := none, new_status := a.status,
            changed_by := "system", timestamp := db.clock,
            comment := some "Zadanie utworzone" }] ∧
       (add_or_update_task db a).1.notifs = db.notifs ++
         [Notif.task_created a.task_id a.title a.assignee db.clock] ∧
       findTask (add_or_update_task db a).1 a.task_id = some (mkRow a db.clock db.clock)) ∧
    (∀ t, findTask db a.task_id = some t → t.status ≠ a.status →
       (add_or_update_task db a).1.history = db.history ++
         [{ task_id := a.task_id, old_status := some t.status, new_status := a.status,
            changed_by := "system", timestamp := db.clock,
            comment := some "Status zaktualizowany podczas synchronizacji" }] ∧
       (add_or_update_task db a).1.notifs = db.notifs ++
         [Notif.status_changed a.task_id a.title t.status a.status db.clock]) := by
  constructor
  · intro hf
    rw [upsert_insert_fst db a hf]
    refine ⟨rfl, rfl, ?_⟩
    show (db.tasks ++ [mkRow a db.clock db.clock]).find? (fun u => u.id == a.task_id) = _
    rw [List.find?_append]
    have hf' : db.tasks.find? (fun u => u.id == a.task_id) = none := hf
    rw [hf']
    simp [mkRow]
  · intro t hf hst
    rw [upsert_diff_fst db a t hf hst]
    exact ⟨rfl, rfl⟩

/-- Witness for C4, exercising both the fresh-id branch (empty store)
and the changed-status branch (pending task re-upserted completed). -/
theorem c4_upsert_history_semantics_witness :
    ((add_or_update_task emptyDB uPend).1.history = emptyDB.history ++
       [{ task_id := uPend.task_id, old_status := none, new_status := uPend.status,
          changed_by := "system", timestamp := emptyDB.clock,
          comment := some "Zadanie utworzone" }] ∧
     (add_or_update_task emptyDB uPend).1.notifs = emptyDB.notifs ++
       [Notif.task_created uPend.task_id uPend.title uPend.assignee emptyDB.clock] ∧
     findTask (add_or_update_task emptyDB uPend).1 uPend.task_id =
       some (mkRow uPend emptyDB.clock emptyDB.clock)) ∧
    ((add_or_update_task dbT1 uDone).1.history = dbT1.history ++
       [{ task_id := uDone.task_id, old_status := some (mkRow uPend 0 0).status,
          new_status := uDone.status, changed_by := "system", timestamp := dbT1.clock,
          comment := some "Status zaktualizowany podczas synchronizacji" }] ∧
     (add_or_update_task dbT1 uDone).1.notifs = dbT1.notifs ++
       [Notif.status_changed uDone.task_id uDone.title (mkRow uPend 0 0).status
          uDone.status dbT1.clock]) :=
  ⟨(c4_upsert_history_semantics emptyDB uPend).1 rfl,
   (c4_upsert_history_semantics dbT1 uDone).2 (mkRow uPend 0 0) rfl (by decide)⟩

/-- C7 (amended): the stored type is overwritten by every upsert with
the supplied task_type, and is never changed by update_task_status or
execute_automated_task. -/
theorem c7_amended_type_set_by_upsert_only (db : DB) (a : UpsertArgs) (env : ExecEnv)
    (task_id ns cb : String) (c : Option String) :
    (findTask (add_or_update_task db a).1 a.task_id).map (fun t => t.type) =
      some a.task_type ∧
    ((update_task_status db task_id ns cb c).1).tasks.map (fun t => t.type) =
      db.tasks.map (fun t => t.type) ∧
    ((execute_automated_task env db task_id).1).tasks.map (fun t => t.type) =
      db.tasks.map (fun t => t.type) := by
  refine ⟨?_, update_tasks_map_type db task_id ns cb c, exec_tasks_map_type env db task_id⟩
  obtain ⟨cr, hcr⟩ := findTask_upsert_self db a
  rw [hcr]
  rfl

/-- C7 counterexample: the task t1 is created with type manual, and a
later upsert of the same id with task_type automated changes the stored
type. -/
theorem c7_counterexample :
    (findTask dbT1 "t1").map (fun t => t.type) = some "manual" ∧
    (findTask (add_or_update_task dbT1 uAutoT1).1 "t1").map (fun t => t.type) =
      some "automated" :=
  ⟨rfl, rfl⟩

/-- C9: update_task_status with the task's current status returns true
and leaves the store untouched (no row change, no history entry, no
notification, updated_at included); with an id absent from the store it
returns false and also leaves the store untouched. -/
theorem c9_setstatus_noop_and_notfound (db : DB) (task_id ns cb : String)
    (c : Option String) :
    (∀ t, findTask db task_id = some t → t.status = ns →
       update_task_status db task_id ns cb c = (db, true)) ∧
    (findTask db task_id = none → update_task_status db task_id ns cb c = (db, false)) :=
  ⟨fun t hf hst => update_noop db task_id ns cb c t hf hst,
   fun hf => update_notfound db task_id ns cb c hf⟩

/-- Witness for C9: a same-status transition on t1 and a transition on
a missing id, both leaving the fixture store unchanged. -/
theorem c9_setstatus_noop_and_notfound_witness :
    update_task_status dbT1 "t1" "pending" "user" none = (dbT1, true) ∧
    update_task_status dbT1 "missing" "pending" "user" none = (dbT1, false) :=
  ⟨(c9_setstatus_noop_and_notfound dbT1 "t1" "pending" "user" none).1
     (mkRow uPend 0 0) rfl rfl,
   (c9_setstatus_noop_and_notfound dbT1 "missing" "pending" "user" none).2 rfl⟩


/-- C5 counterexample: "bogus" is outside the five-value status list,
yet update_task_status applied to the pending task t1 returns true and
stores "bogus", appending a history entry — no validation and no
failure happen at the engine level. -/
theorem c5_counterexample :
    valid_statuses.contains "bogus" = false ∧
    (update_task_status dbT1 "t1" "bogus" "user" none).2 = true ∧
    taskStatus (update_task_status dbT1 "t1" "bogus" "user" none).1 "t1" = some "bogus" ∧
    (update_task_status dbT1 "t1" "bogus" "user" none).1.history ≠ dbT1.history := by
  refine ⟨rfl, rfl, rfl, ?_⟩
  decide

/-- C5 (amended): the five-value validation is performed by the CLI
wrapper task_update, which leaves the store untouched for a status
outside the list; update_task_status itself performs no validation and
applies any supplied status string to an existing task whose stored
status differs. -/
theorem c5_amended_validation_in_cli_wrapper (db : DB) (task_id st cb : String)
    (c : Option String) :
    (valid_statuses.contains st = false → task_update db task_id st c = db) ∧
    (∀ t, findTask db task_id = some t → t.status ≠ st →
       (update_task_status db task_id st cb c).2 = true ∧
       taskStatus (update_task_status db task_id st cb c).1 task_id = some st) := by
  constructor
  · intro hv
    unfold task_update
    have hnv : ¬(valid_statuses.contains st = true) := by
      rw [hv]; exact Bool.false_ne_true
    rw [if_neg hnv]
  · intro t hf hst
    constructor
    · rw [update_changed_eq db task_id st cb c t hf hst]
    · exact taskStatus_update_self db task_id st cb c t hf

/-- Witness for C5: the CLI wrapper rejects "bogus" without mutating
the fixture store, while the engine applies "completed" to the pending
task t1. -/
theorem c5_amended_validation_in_cli_wrapper_witness :
    task_update dbT1 "t1" "bogus" none = dbT1 ∧
    ((update_task_status dbT1 "t1" "completed" "user" none).2 = true ∧
     taskStatus (update_task_status dbT1 "t1" "completed" "user" none).1 "t1" =
       some "completed") :=
  ⟨(c5_amended_validation_in_cli_wrapper dbT1 "t1" "bogus" "user" none).1 rfl,
   (c5_amended_validation_in_cli_wrapper dbT1 "t1" "completed" "user" none).2
     (mkRow uPend 0 0) rfl (by decide)⟩

/-- C8 counterexample: re-running the config sync with identical
definitions does not produce identical task rows — the second sync
refreshes updated_at on the existing row (it does append no history). -/
theorem c8_counterexample :
    (sync_tasks_from_config cfgOne (sync_tasks_from_config cfgOne emptyDB)).tasks ≠
      (sync_tasks_from_config cfgOne emptyDB).tasks ∧
    (sync_tasks_from_config cfgOne (sync_tasks_from_config cfgOne emptyDB)).history =
      (sync_tasks_from_config cfgOne emptyDB).history := by
  constructor
  · decide
  · rfl

/-- C8 (amended): for definitions with pairwise-distinct ids, a second
sync with identical definitions appends no history entry, triggers no
notification, and produces identical task rows up to the refreshed
updated_at column. -/
theorem c8_amended_sync_idempotent_mod_updated_at (cfg : TasksConfig) (db : DB)
    (hnd : ((syncArgs cfg).map (fun a => a.task_id)).Nodup) :
    (sync_tasks_from_config cfg (sync_tasks_from_config cfg db)).history =
      (sync_tasks_from_config cfg db).history ∧
    (sync_tasks_from_config cfg (sync_tasks_from_config cfg db)).notifs =
      (sync_tasks_from_config cfg db).notifs ∧
    (sync_tasks_from_config cfg (sync_tasks_from_config cfg db)).tasks.map eraseUpdatedAt =
      (sync_tasks_from_config cfg db).tasks.map eraseUpdatedAt := by
  unfold sync_tasks_from_config
  exact applyUpserts_noop (syncArgs cfg) (applyUpserts (syncArgs cfg) db) hnd
    (syncedAll_applyUpserts (syncArgs cfg) hnd db)

/-- Witness for C8: the one-definition fixture config, synced twice
from the empty store. -/
theorem c8_amended_sync_idempotent_mod_updated_at_witness :
    (sync_tasks_from_config cfgOne (sync_tasks_from_config cfgOne emptyDB)).history =
      (sync_tasks_from_config cfgOne emptyDB).history ∧
    (sync_tasks_from_config cfgOne (sync_tasks_from_config cfgOne emptyDB)).notifs =
      (sync_tasks_from_config cfgOne emptyDB).notifs ∧
    (sync_tasks_from_config cfgOne (sync_tasks_from_config cfgOne emptyDB)).tasks.map
        eraseUpdatedAt =
      (sync_tasks_from_config cfgOne emptyDB).tasks.map eraseUpdatedAt :=
  c8_amended_sync_idempotent_mod_updated_at cfgOne emptyDB (by decide)

/-- C10: whenever one scan of the scheduler invokes the executor for a
task id, the store held (at scan time) a task with that id which is
automated, pending, and has a truthy (non-empty) schedule; tasks with
an empty or missing schedule are never auto-triggered. -/
theorem c10_scheduler_triggers_only_pending_scheduled (env : ExecEnv) (db : DB)
    (id : String) (h : id ∈ (check_and_execute_scheduled_tasks env db).2) :
    ∃ t ∈ db.tasks, t.id = id ∧ t.type = "automated" ∧ t.status = "pending" ∧
      truthyOpt t.schedule = true := by
  have hK := sched_snd env (list_tasks db none (some "automated") none none none) (db, [])
  unfold check_and_execute_scheduled_tasks at h
  rw [hK] at h
  have h2 : id ∈ ((list_tasks db none (some "automated") none none none).filter
      (fun t => (t.status == "pending") && truthyOpt t.schedule)).map (fun t => t.id) := by
    simpa using h
  obtain ⟨t, htmem, htid⟩ := List.mem_map.mp h2
  obtain ⟨htl, hcond⟩ := List.mem_filter.mp htmem
  have htl2 : t ∈ db.tasks.filter (fun t =>
      (true : Bool) && (t.type == "automated") && true && true && true) := htl
  obtain ⟨htdb, hpred⟩ := List.mem_filter.mp htl2
  have htype : t.type = "automated" := by
    simp only [Bool.true_and, Bool.and_true] at hpred
    exact beq_iff_eq.mp hpred
  have hcond2 := hcond
  simp only [Bool.and_eq_true] at hcond2
  obtain ⟨hstat, hsch⟩ := hcond2
  exact ⟨t, htdb, htid, htype, beq_iff_eq.mp hstat, hsch⟩


set_option maxRecDepth 10000 in
/-- Witness for C10: on the fixture store the scan invokes the executor
for a1, and a1 is indeed an automated pending task with a truthy
schedule. -/
theorem c10_scheduler_triggers_only_pending_scheduled_witness :
    "a1" ∈ (check_and_execute_scheduled_tasks envOk dbA).2 ∧
    ∃ t ∈ dbA.tasks, t.id = "a1" ∧ t.type = "automated" ∧ t.status = "pending" ∧
      truthyOpt t.schedule = true :=
  ⟨by decide, c10_scheduler_triggers_only_pending_scheduled envOk dbA "a1" (by decide)⟩

set_option maxRecDepth 10000 in
/-- C6 counterexample: the synced task t1 is explicitly completed by a
caller, and re-running the config sync (an operation of the core) moves
it back to pending; likewise, a direct execute of the completed
automated task c1 re-runs it and (here, with exit code 1) leaves it
failed — so completed is terminal under neither upsert-from-config nor
the executor. -/
theorem c6_counterexample :
    taskStatus dbSyncDone "t1" = some "completed" ∧
    taskStatus (sync_tasks_from_config cfgOne dbSyncDone) "t1" = some "pending" ∧
    taskStatus dbDoneAuto "c1" = some "completed" ∧
    taskStatus (execute_automated_task envFail dbDoneAuto "c1").1 "c1" = some "failed" :=
  ⟨rfl, rfl, rfl, rfl⟩

/-- C6 (amended): completed and failed are terminal with respect to the
scheduler — one scan of check_and_execute_scheduled_tasks never touches
a task whose status is completed or failed (it only triggers pending
tasks); add_or_update_task and a direct execute_automated_task call are
not restricted in this way. -/
theorem c6_amended_scheduler_preserves_terminal (env : ExecEnv) (db : DB) (t : Task)
    (hnd : idsNodup db) (ht : t ∈ db.tasks)
    (hterm : t.status = "completed" ∨ t.status = "failed") :
    findTask (check_and_execute_scheduled_tasks env db).1 t.id = findTask db t.id := by
  have key : ∀ (l : List Task), (∀ s ∈ l, s ∈ db.tasks) →
      ∀ acc : DB × List String, findTask acc.1 t.id = findTask db t.id →
      findTask (l.foldl (fun acc u =>
        if u.status ≠ "pending" then acc
        else if truthyOpt u.schedule then
          ((execute_automated_task env acc.1 u.id).1, acc.2 ++ [u.id])
        else acc) acc).1 t.id = findTask db t.id := by
    intro l
    induction l with
    | nil => intro _ acc hacc; exact hacc
    | cons s l ih =>
      intro hsub acc hacc
      simp only [List.foldl_cons]
      by_cases hsp : s.status ≠ "pending"
      · rw [if_pos hsp]
        exact ih (fun x hx => hsub x (List.mem_cons_of_mem s hx)) acc hacc
      · rw [if_neg hsp]
        by_cases hsch : truthyOpt s.schedule = true
        · rw [if_pos hsch]
          refine ih (fun x hx => hsub x (List.mem_cons_of_mem s hx)) _ ?_
          show findTask (execute_automated_task env acc.1 s.id).1 t.id = findTask db t.id
          have hsid : t.id ≠ s.id := by
            intro heq
            have hs : s ∈ db.tasks := hsub s (List.mem_cons_self s l)
            have hts : t = s := List.inj_on_of_nodup_map hnd ht hs heq
            have hsp' : s.status = "pending" := not_not.mp hsp
            rcases hterm with h1 | h1 <;> rw [hts, hsp'] at h1 <;> exact absurd h1 (by decide)
          rw [findTask_exec_other env acc.1 s.id t.id hsid]
          exact hacc
        · rw [if_neg hsch]
          exact ih (fun x hx => hsub x (List.mem_cons_of_mem s hx)) acc hacc
  refine key (list_tasks db none (some "automated") none none none) ?_ (db, []) rfl
  intro x hx
  have hx2 : x ∈ db.tasks.filter (fun t =>
      (true : Bool) && (t.type == "automated") && true && true && true) := hx
  exact (List.mem_filter.mp hx2).1

set_option maxRecDepth 10000 in
/-- Witness for C6: the fixture store with the single completed
automated task c1 is left untouched by a scan. -/
theorem c6_amended_scheduler_preserves_terminal_witness :
    findTask (check_and_execute_scheduled_tasks envOk dbDoneAuto).1
        (mkRow uAutoDone 0 0).id =
      findTask dbDoneAuto (mkRow uAutoDone 0 0).id :=
  c6_amended_scheduler_preserves_terminal envOk dbDoneAuto (mkRow uAutoDone 0 0)
    (by unfold idsNodup; decide) (by decide) (Or.inl rfl)


set_option maxRecDepth 10000 in
/-- C3 counterexample: a successful run (exit 0, stdout "ok") does
transition a1 to completed and return true, but the recorded comment is
the fixed label followed by the truncated stdout, not equal to the
first 200 characters of stdout as the claim states. -/
theorem c3_counterexample :
    (execute_automated_task envOk dbA "a1").2 = true ∧
    taskStatus (execute_automated_task envOk dbA "a1").1 "a1" = some "completed" ∧
    latestComment (execute_automated_task envOk dbA "a1").1 "a1" =
      some ("Zadanie wykonane pomyślnie: " ++ "ok".take 200) ∧
    latestComment (execute_automated_task envOk dbA "a1").1 "a1" ≠ some ("ok".take 200) := by
  refine ⟨rfl, rfl, rfl, ?_⟩
  decide

/-- C3 (amended): execute on an automated task maps the child-process
outcome to a terminal status: exit 0 transitions to completed and
returns true with comment "Zadanie wykonane pomyślnie: " plus the first
200 characters of stdout; a nonzero exit transitions to failed and
returns false with comment "Błąd: " plus the first 200 characters of
stderr; a missing, empty or nonexistent script path transitions to
failed and returns false without consulting the process runner, with a
comment naming the script; an exception during spawn/communication
transitions to failed and returns false with comment "Wyjątek: " plus
the exception text. -/
theorem c3_amended_executor_outcome_mapping (env : ExecEnv) (db : DB) (task_id : String)
    (t : Task) (hf : findTask db task_id = some t) (ht : t.type = "automated") :
    (script_missing env t.script = true →
       (execute_automated_task env db task_id).2 = false ∧
       taskStatus (execute_automated_task env db task_id).1 task_id = some "failed" ∧
       latestComment (execute_automated_task env db task_id).1 task_id =
         some ("Nie znaleziono skryptu " ++ displayScript t.script) ∧
       ∀ r, execute_automated_task { script_exists := env.script_exists, run := r }
           db task_id = execute_automated_task env db task_id) ∧
    (∀ out err, script_missing env t.script = false →
       env.run (buildCmd (displayScript t.script) t.parameters) =
         ProcResult.exited 0 out err →
       (execute_automated_task env db task_id).2 = true ∧
       taskStatus (execute_automated_task env db task_id).1 task_id = some "completed" ∧
       latestComment (execute_automated_task env db task_id).1 task_id =
         some ("Zadanie wykonane pomyślnie: " ++ out.take 200)) ∧
    (∀ code out err, script_missing env t.script = false →
       env.run (buildCmd (displayScript t.script) t.parameters) =
         ProcResult.exited code out err → code ≠ 0 →
       (execute_automated_task env db task_id).2 = false ∧
       taskStatus (execute_automated_task env db task_id).1 task_id = some "failed" ∧
       latestComment (execute_automated_task env db task_id).1 task_id =
         some ("Błąd: " ++ err.take 200)) ∧
    (∀ m, script_missing env t.script = false →
       env.run (buildCmd (displayScript t.script) t.parameters) = ProcResult.exn m →
       (execute_automated_task env db task_id).2 = false ∧
       taskStatus (execute_automated_task env db task_id).1 task_id = some "failed" ∧
       latestComment (execute_automated_task env db task_id).1 task_id =
         some ("Wyjątek: " ++ m)) := by
  obtain ⟨t1, hf1, hs1⟩ := exec_after_in_progress db task_id t hf
  refine ⟨?_, ?_, ?_, ?_⟩
  · intro hsm
    have hEq := exec_missing_eq env db task_id t hf ht hsm
    rw [hEq]
    have hne : t1.status ≠ "failed" := by rw [hs1]; decide
    refine ⟨rfl, taskStatus_update_self _ task_id "failed" "system" _ t1 hf1, ?_, ?_⟩
    · unfold latestComment
      rw [latestHistory_update_changed _ task_id "failed" "system" _ t1 hf1 hne]
      rfl
    · intro r
      have hsm' : script_missing
          { script_exists := env.script_exists, run := r } t.script = true := hsm
      rw [exec_missing_eq { script_exists := env.script_exists, run := r }
        db task_id t hf ht hsm']
  · intro out err hsm hrun
    have hEq := exec_exit_eq env db task_id t 0 out err hf ht hsm hrun
    rw [if_pos rfl] at hEq
    rw [hEq]
    have hne : t1.status ≠ "completed" := by rw [hs1]; decide
    refine ⟨rfl, taskStatus_update_self _ task_id "completed" "system" _ t1 hf1, ?_⟩
    unfold latestComment
    rw [latestHistory_update_changed _ task_id "completed" "system" _ t1 hf1 hne]
    rfl
  · intro code out err hsm hrun hcode
    have hEq := exec_exit_eq env db task_id t code out err hf ht hsm hrun
    rw [if_neg hcode] at hEq
    rw [hEq]
    have hne : t1.status ≠ "failed" := by rw [hs1]; decide
    refine ⟨rfl, taskStatus_update_self _ task_id "failed" "system" _ t1 hf1, ?_⟩
    unfold latestComment
    rw [latestHistory_update_changed _ task_id "failed" "system" _ t1 hf1 hne]
    rfl
  · intro m hsm hrun
    have hEq := exec_exn_eq env db task_id t m hf ht hsm hrun
    rw [hEq]
    have hne : t1.status ≠ "failed" := by rw [hs1]; decide
    refine ⟨rfl, taskStatus_update_self _ task_id "failed" "system" _ t1 hf1, ?_⟩
    unfold latestComment
    rw [latestHistory_update_changed _ task_id "failed" "system" _ t1 hf1 hne]
    rfl

set_option maxRecDepth 10000 in
/-- Witness for C3: the fixture run of a1 (script run.sh exists, exit
code 0, stdout "ok") lands in the exit-0 clause. -/
theorem c3_amended_executor_outcome_mapping_witness :
    (execute_automated_task envOk dbA "a1").2 = true ∧
    taskStatus (execute_automated_task envOk dbA "a1").1 "a1" = some "completed" ∧
    latestComment (execute_automated_task envOk dbA "a1").1 "a1" =
      some ("Zadanie wykonane pomyślnie: " ++ "ok".take 200) :=
  (c3_amended_executor_outcome_mapping envOk dbA "a1" (mkRow uAuto 0 0) rfl rfl).2.1
    "ok" "" rfl rfl


end Microfunc
